import Mathlib

/-!
# Shallow embedding of the konnektr-io/http-query-operator sync engine

Definitions below translate the Go source of the repository:
`internal/util/gvk.go`, `internal/util/template_processor.go`,
`internal/controller/httpqueryresource_controller.go`,
`internal/controller/databasequeryresource_controller.go` and
`api/v1alpha1/httpqueryresource_types.go`.

External collaborators (the Go template engine, the JSON/YAML parsers,
the cluster client calls and the standard-library string utilities) are
modelled as abstract function parameters or as small executable models,
so that the in-repo control flow — skip-and-continue loops, error
aggregation, prune gating, finalizer handling, condition updates — is
embedded exactly and can be evaluated on concrete inputs.
-/

/-- Model of Go `strings.TrimSpace`: drop whitespace from both ends. -/
def trimSpace (s : String) : String :=
  ⟨((s.data.dropWhile Char.isWhitespace).reverse.dropWhile Char.isWhitespace).reverse⟩

/-- Worker for `goSplit`: Go `strings.Split` on a non-empty separator,
fuelled by the input length so the recursion is structural. -/
def splitSubFuel (sep : List Char) : Nat → List Char → List Char → List (List Char)
  | 0, cur, l => [cur.reverse ++ l]
  | _ + 1, cur, [] => [cur.reverse]
  | fuel + 1, cur, c :: rest =>
    if sep.isPrefixOf (c :: rest) then
      cur.reverse :: splitSubFuel sep fuel [] ((c :: rest).drop sep.length)
    else
      splitSubFuel sep fuel (c :: cur) rest

/-- Model of Go `strings.Split s sep` for the non-empty separators used in
this repository (`";"`, `"/"`, `"---"`). -/
def goSplit (s sep : String) : List String :=
  match sep.data with
  | [] => [s]
  | _ :: _ => (splitSubFuel sep.data (s.data.length + 1) [] s.data).map String.mk

/-- `schema.GroupVersionKind` as used by `internal/util/gvk.go`. -/
structure GVK where
  group : String
  version : String
  kind : String
deriving DecidableEq, Repr

/-- Loop body of `ParseGVKs` (`internal/util/gvk.go` lines 14–37): trim the
entry, skip empties, split on `/`, accept `version/kind` or
`group/version/kind`, skip entries with empty version or kind. -/
def parseGVKStep (gvks : List GVK) (entry : String) : List GVK :=
  let entry := trimSpace entry
  if entry = "" then gvks
  else
    let parts := goSplit entry "/"
    let gvt : String × String × String :=
      match parts with
      | [v, k] => ("", v, k)
      | [g, v, k] => (g, v, k)
      | _ => ("", "", "")
    if gvt.2.1 = "" ∨ gvt.2.2 = "" then gvks
    else gvks ++ [⟨gvt.1, gvt.2.1, gvt.2.2⟩]

/-- `ParseGVKs` from `internal/util/gvk.go`: fold the loop body over the
semicolon-separated entries; error exactly when no valid entry remains. -/
def ParseGVKs (pattern : String) : Except String (List GVK) :=
  let gvks := (goSplit pattern ";").foldl parseGVKStep []
  if gvks = [] then .error "no valid watched GVKs specified" else .ok gvks

/-- Claim-side reading of one watched-GVK entry, following the spec's words:
an entry is kept iff, after trimming, it is non-empty and has the form
`version/kind` or `group/version/kind` with non-empty version and kind. -/
def validEntryGVK (entry : String) : Option GVK :=
  let entry := trimSpace entry
  if entry = "" then none
  else
    match goSplit entry "/" with
    | [v, k] => if v = "" ∨ k = "" then none else some ⟨"", v, k⟩
    | [g, v, k] => if v = "" ∨ k = "" then none else some ⟨g, v, k⟩
    | _ => none

/-- Claim-side form of the watched-GVK parser: keep the valid entries in
order and fail exactly when zero valid entries result. -/
def ParseGVKsClaim (pattern : String) : Except String (List GVK) :=
  let valid := (goSplit pattern ";").filterMap validEntryGVK
  if valid = [] then .error "no valid watched GVKs specified" else .ok valid

/-- Parsed document object: the string-keyed map a JSON/YAML document
unmarshals into (`map[string]interface{}`, values abstracted to strings). -/
abbrev KMap := List (String × String)

/-- Loop of `ParseResources` (`internal/util/template_processor.go` lines
43–64), with the external JSON and YAML unmarshalers abstract: trim each
candidate document, skip empties, try JSON first and fall back to YAML,
fail hard when both parsers reject a non-empty document, drop documents
that parse to an empty object. -/
def parseResourcesLoop (jsonU yamlU : String → Option KMap) :
    List String → List KMap → Except String (List KMap)
  | [], resources => .ok resources
  | doc :: docs, resources =>
    let doc := trimSpace doc
    if doc = "" then parseResourcesLoop jsonU yamlU docs resources
    else
      match jsonU doc with
      | some obj =>
        if obj.length = 0 then parseResourcesLoop jsonU yamlU docs resources
        else parseResourcesLoop jsonU yamlU docs (resources ++ [obj])
      | none =>
        match yamlU doc with
        | some obj =>
          if obj.length = 0 then parseResourcesLoop jsonU yamlU docs resources
          else parseResourcesLoop jsonU yamlU docs (resources ++ [obj])
        | none => .error "failed to parse document as JSON or YAML"

/-- `ParseResources` from `internal/util/template_processor.go`: split the
rendered text on the `---` document separator and run the parsing loop. -/
def ParseResources (jsonU yamlU : String → Option KMap) (data : String) :
    Except String (List KMap) :=
  parseResourcesLoop jsonU yamlU (goSplit data "---") []

/-- Claim-side parse of one document: JSON first, YAML on JSON failure. -/
def parseDocClaim (jsonU yamlU : String → Option KMap) (doc : String) : Option KMap :=
  match jsonU doc with
  | some obj => some obj
  | none => yamlU doc

/-- Claim-side test that one candidate document causes no parse error:
it is whitespace-only or parses under one of the two formats. -/
def docParseableClaim (jsonU yamlU : String → Option KMap) (doc : String) : Bool :=
  trimSpace doc == "" || (parseDocClaim jsonU yamlU (trimSpace doc)).isSome

/-- Claim-side contribution of one candidate document to the output list. -/
def keptDocClaim (jsonU yamlU : String → Option KMap) (doc : String) : Option KMap :=
  let doc := trimSpace doc
  if doc = "" then none
  else
    match parseDocClaim jsonU yamlU doc with
    | some obj => if obj.length = 0 then none else some obj
    | none => none

/-- Claim-side form of `ParseResources`: split on `---`, silently discard
whitespace-only candidates, parse JSON-then-YAML, error exactly when some
non-empty candidate parses under neither format. -/
def ParseResourcesClaim (jsonU yamlU : String → Option KMap) (data : String) :
    Except String (List KMap) :=
  let docs := goSplit data "---"
  if docs.all (docParseableClaim jsonU yamlU) then
    .ok (docs.filterMap (keptDocClaim jsonU yamlU))
  else .error "failed to parse document as JSON or YAML"

/-- Go map assignment `m[k] = v` on a string-keyed map modelled as an
association list: overwrite the key if present, append it otherwise. -/
def setMapKey (m : List (String × String)) (k v : String) : List (String × String) :=
  if m.any (fun p => p.1 = k) then m.map (fun p => if p.1 = k then (k, v) else p)
  else m ++ [(k, v)]

/-- Loop of `ProcessHTTPResponseToResources` (`template_processor.go` lines
76–110), item by item with its index: a template render failure or a parse
failure records an error message and skips the item; on success every
parsed resource gets the original-item annotation and is collected. The
template engine (`render`), the unmarshalers, the annotation accessors of
`unstructured.Unstructured` and the item JSON marshaller are abstract.
Returns (collected resources, failed item count, error messages). -/
def processItemsLoop (render : String → Nat → String → Except String String)
    (jsonU yamlU : String → Option KMap)
    (getAnno : KMap → List (String × String))
    (setAnno : KMap → List (String × String) → KMap)
    (marshalItem : String → String) (templateStr : String) :
    Nat → List String → List KMap → Nat → List String →
      List KMap × Nat × List String
  | _, [], allResources, failedCount, errorMessages =>
    (allResources, failedCount, errorMessages)
  | i, item :: rest, allResources, failedCount, errorMessages =>
    match render templateStr i item with
    | .error e =>
      processItemsLoop render jsonU yamlU getAnno setAnno marshalItem templateStr
        (i + 1) rest allResources (failedCount + 1)
        (errorMessages ++ ["item " ++ toString i ++ ": template error: " ++ e])
    | .ok renderedYAML =>
      match ParseResources jsonU yamlU renderedYAML with
      | .error e =>
        processItemsLoop render jsonU yamlU getAnno setAnno marshalItem templateStr
          (i + 1) rest allResources (failedCount + 1)
          (errorMessages ++ ["item " ++ toString i ++ ": parse error: " ++ e])
      | .ok itemResources =>
        let annotated := itemResources.map (fun r =>
          setAnno r (setMapKey (getAnno r) "konnektr.io/original-item" (marshalItem item)))
        processItemsLoop render jsonU yamlU getAnno setAnno marshalItem templateStr
          (i + 1) rest (allResources ++ annotated) failedCount errorMessages

/-- `ProcessHTTPResponseToResources` from `template_processor.go` lines
70–120: run the item loop, then fail with the aggregate message exactly
when zero resources were collected. -/
def ProcessHTTPResponseToResources
    (render : String → Nat → String → Except String String)
    (jsonU yamlU : String → Option KMap)
    (getAnno : KMap → List (String × String))
    (setAnno : KMap → List (String × String) → KMap)
    (marshalItem : String → String)
    (templateStr : String) (items : List String) : Except String (List KMap) :=
  let out := processItemsLoop render jsonU yamlU getAnno setAnno marshalItem
    templateStr 0 items [] 0 []
  if out.1.length = 0 then
    .error ("all items failed to process: " ++ String.intercalate "; " out.2.2)
  else .ok out.1

/-- `unstructured.Unstructured` as handled by the database controller:
group/version/kind, namespace, name and labels. -/
structure KObj where
  group : String
  version : String
  kind : String
  nspace : String
  name : String
  labels : List (String × String)
deriving DecidableEq, Repr

/-- `getObjectKey` from `databasequeryresource_controller.go` lines 453–457:
`group/version/namespace/name` — the kind is not part of the key. -/
def getObjectKey (obj : KObj) : String :=
  obj.group ++ "/" ++ obj.version ++ "/" ++ obj.nspace ++ "/" ++ obj.name

/-- Identity key as the claim words it: (group, version, kind, namespace,
name). Modelled from the spec for comparison with `getObjectKey`. -/
def identityKeyClaim (obj : KObj) : String :=
  obj.group ++ "/" ++ obj.version ++ "/" ++ obj.kind ++ "/" ++ obj.nspace ++ "/" ++ obj.name

/-- Ownership label key (`ManagedByLabel` constant of the controllers). -/
def ManagedByLabel : String := "konnektr.io/managed-by"

/-- State threaded through the row loop of the database controller's
`Reconcile` (step 6): the managed-key set (a Go `map[string]bool`, here an
insert-if-absent list), the aggregated per-row error messages, the
successfully applied objects and the successfully processed rows. -/
structure DbCycleState where
  managedKeys : List String
  rowErrors : List String
  applied : List KObj
  processedRows : List String
deriving DecidableEq, Repr

/-- Materialization step of the row loop (`databasequeryresource_controller.go`
lines 225–233): default the namespace to the instance's namespace when
unset and stamp the ownership label. -/
def materializeObj (crNamespace crName : String) (obj0 : KObj) : KObj :=
  let obj1 := if obj0.nspace = "" then { obj0 with nspace := crNamespace } else obj0
  { obj1 with labels := setMapKey obj1.labels ManagedByLabel crName }

/-- Row loop body of `Reconcile` (`databasequeryresource_controller.go`
lines 203–251): render the template for the row, decode the output,
materialize, set the controller reference, then server-side-apply; each
failure appends one message and skips the row, success records the object
key, the object and the row. The template engine, decoder, owner-reference
helper and cluster patch call are abstract. -/
def dbProcessRow (crNamespace crName : String)
    (tmplExec : String → Except String String)
    (decode : String → Except String KObj)
    (setControllerRef : KObj → Except String KObj)
    (applyPatch : KObj → Except String Unit)
    (st : DbCycleState) (rowData : String) : DbCycleState :=
  match tmplExec rowData with
  | .error e =>
    { st with rowErrors :=
        st.rowErrors ++ ["template render error for row data " ++ rowData ++ ": " ++ e] }
  | .ok rendered =>
    match decode rendered with
    | .error e =>
      { st with rowErrors :=
          st.rowErrors ++ ["decode error for template output \x27" ++ rendered ++ "\x27: " ++ e] }
    | .ok obj0 =>
      match setControllerRef (materializeObj crNamespace crName obj0) with
      | .error e =>
        { st with rowErrors :=
            st.rowErrors ++ ["owner ref error for "
              ++ (materializeObj crNamespace crName obj0).nspace ++ "/"
              ++ (materializeObj crNamespace crName obj0).name ++ ": " ++ e] }
      | .ok obj =>
        match applyPatch obj with
        | .error e =>
          { st with rowErrors :=
              st.rowErrors ++ ["apply error for " ++ obj.nspace ++ "/" ++ obj.name ++ ": " ++ e] }
        | .ok _ =>
          { st with
            managedKeys :=
              if getObjectKey obj ∈ st.managedKeys then st.managedKeys
              else st.managedKeys ++ [getObjectKey obj]
            applied := st.applied ++ [obj]
            processedRows := st.processedRows ++ [rowData] }

/-- Row loop of the database controller's `Reconcile` over all query rows. -/
def dbProcessRows (crNamespace crName : String)
    (tmplExec : String → Except String String)
    (decode : String → Except String KObj)
    (setControllerRef : KObj → Except String KObj)
    (applyPatch : KObj → Except String Unit)
    (rows : List String) : DbCycleState :=
  rows.foldl (dbProcessRow crNamespace crName tmplExec decode setControllerRef applyPatch)
    { managedKeys := [], rowErrors := [], applied := [], processedRows := [] }

/-- Step 9 of `Reconcile` (lines 276–281): list the managed-key set and
sort it (Go `sort.Strings`, modelled by insertion sort). -/
def dbManagedResourcesList (managedKeys : List String) : List String :=
  managedKeys.insertionSort (· ≤ ·)

/-- `truncateError` from `databasequeryresource_controller.go` lines
472–478: truncate to `maxLen` with a trailing ellipsis marker. -/
def truncateError (msg : String) (maxLen : Nat) : String :=
  if msg.length > maxLen then ⟨msg.data.take (maxLen - 3)⟩ ++ "..." else msg

/-- Outcome of one database-controller cycle as persisted and returned by
steps 7–9 of `Reconcile`: the `Reconciled` condition arguments, the
managed-resource inventory, the requeue delay and the returned error. -/
structure CycleReport where
  reconciledStatus : Bool
  reconciledReason : String
  reconciledMessage : String
  managedResources : List String
  requeueAfter : Nat
  returnedError : Option String
deriving DecidableEq, Repr

/-- Tail of the database controller's `Reconcile` (lines 275–297): join the
row-processing and prune errors; on any error set `Reconciled=false` with
the truncated joined message, return the error and requeue after the poll
interval; on success set `Reconciled=true` and requeue after the poll
interval. -/
def dbFinishCycle (pollInterval : Nat)
    (rowProcessingErrors pruneErrors managedKeys : List String) : CycleReport :=
  let finalErrors := rowProcessingErrors ++ pruneErrors
  let managedResourcesList := dbManagedResourcesList managedKeys
  if finalErrors.length > 0 then
    let errMsg := String.intercalate "; " finalErrors
    { reconciledStatus := false
      reconciledReason := "ProcessingError"
      reconciledMessage := truncateError errMsg 1024
      managedResources := managedResourcesList
      requeueAfter := pollInterval
      returnedError := some ("reconciliation failed: " ++ errMsg) }
  else
    { reconciledStatus := true
      reconciledReason := "Success"
      reconciledMessage := "Successfully queried DB and reconciled resources"
      managedResources := managedResourcesList
      requeueAfter := pollInterval
      returnedError := none }

/-- `Reconcile` from the whole-template-parse checkpoint
(`databasequeryresource_controller.go` lines 193–199) to the end: a
template parse failure — a fatal error — sets `Reconciled=false` with
reason `TemplateError` and the untruncated message, leaves the persisted
inventory as it was, and returns `ctrl.Result{}` — requeue delay zero and
a nil error — skipping the row loop entirely; with a parsable template
the cycle runs the row loop and finishes as `dbFinishCycle`. -/
def dbCycleFromTemplate (pollInterval : Nat) (tmplParse : Except String Unit)
    (prevManaged : List String)
    (rowProcessingErrors pruneErrors managedKeys : List String) : CycleReport :=
  match tmplParse with
  | .error e =>
    { reconciledStatus := false
      reconciledReason := "TemplateError"
      reconciledMessage := "Invalid template: " ++ e
      managedResources := prevManaged
      requeueAfter := 0
      returnedError := none }
  | .ok _ => dbFinishCycle pollInterval rowProcessingErrors pruneErrors managedKeys

/-- Outcome of one `Delete` call against the cluster store. -/
inductive DelOutcome
  | ok
  | notFound
  | failed (msg : String)
deriving DecidableEq, Repr

/-- Loop body of `pruneStaleResources`: skip children whose key is in the
current-cycle key set; call `Delete` on the rest, collecting an error
message only for failures that are not not-found. The accumulator is
(error messages, objects Delete was called on). -/
def pruneStep (del : KObj → DelOutcome) (currentKeys : List String)
    (acc : List String × List KObj) (item : KObj) : List String × List KObj :=
  let objKey := getObjectKey item
  if objKey ∈ currentKeys then acc
  else
    match del item with
    | .failed e => (acc.1 ++ ["delete " ++ objKey ++ ": " ++ e], acc.2 ++ [item])
    | _ => (acc.1, acc.2 ++ [item])

/-- `pruneStaleResources` from `databasequeryresource_controller.go` lines
365–384: delete every collected child whose `getObjectKey` is absent from
the current cycle's key set; return the aggregated non-not-found delete
errors together with the set of children Delete was invoked on. -/
def pruneStaleResources (del : KObj → DelOutcome) (currentKeys : List String)
    (allChildren : List KObj) : List String × List KObj :=
  allChildren.foldl (pruneStep del currentKeys) ([], [])

/-- `unstructured.Unstructured` as handled by the HTTP controller:
apiVersion, kind, namespace, name, and the UIDs of its owner references. -/
structure HObj where
  apiVersion : String
  kind : String
  nspace : String
  name : String
  ownerUIDs : List String
deriving DecidableEq, Repr

/-- Apply loop of `reconcileResources` (`httpqueryresource_controller.go`
lines 246–252): apply each rendered resource in order, returning on the
first failure. Result: (resources applied, aborting error if any); the
cluster apply call is abstract. -/
def httpApplyResources (applyResource : HObj → Option String) :
    List HObj → List HObj × Option String
  | [] => ([], none)
  | r :: rest =>
    match applyResource r with
    | some e => ([], some e)
    | none =>
      let out := httpApplyResources applyResource rest
      (r :: out.1, out.2)

/-- Finalizer constant of the HTTP controller. -/
def HTTPQueryFinalizer : String := "konnektr.io/httpqueryresource-finalizer"

/-- `deleteOwnedResources` from `httpqueryresource_controller.go` lines
357–391: per watched GVK, list the labelled resources (a list failure is
logged and skipped); delete each item owned by the instance UID, logging
but not propagating delete failures; the function ends with `return nil`
unconditionally. Result: (objects Delete was called on, returned error). -/
def deleteOwnedResources (uid : String) (listOwned : GVK → Option (List HObj))
    (del : HObj → DelOutcome) (ownedGVKs : List GVK) : List HObj × Option String :=
  let deleted := ownedGVKs.foldl (fun acc gvk =>
    match listOwned gvk with
    | none => acc
    | some items =>
      items.foldl (fun acc item =>
        if item.ownerUIDs.contains uid then
          match del item with
          | _ => acc ++ [item]
        else acc) acc) []
  (deleted, none)

/-- `handleDeletion` from `httpqueryresource_controller.go` lines 152–171:
on a `deleteOwnedResources` error keep the finalizers and report the
error; otherwise remove the finalizer. -/
def handleDeletion (uid : String) (listOwned : GVK → Option (List HObj))
    (del : HObj → DelOutcome) (ownedGVKs : List GVK) (finalizers : List String) :
    Except String (List String) :=
  match (deleteOwnedResources uid listOwned del ownedGVKs).2 with
  | some e => .error e
  | none => .ok (finalizers.filter (· ≠ HTTPQueryFinalizer))

/-- `GetPrune` from `api/v1alpha1/httpqueryresource_types.go` lines
164–170: default to true when the prune field is unset. -/
def GetPrune (prune : Option Bool) : Bool :=
  match prune with
  | none => true
  | some b => b

/-- Prune gate of `reconcileResources` line 255:
`Spec.Prune != nil && *Spec.Prune`. -/
def httpPruneGate (prune : Option Bool) : Bool :=
  match prune with
  | none => false
  | some b => b

/-- Resource key used by `cleanupUnmanagedResources` (line 400):
apiVersion/kind/name. -/
def httpResourceKey (r : HObj) : String :=
  r.apiVersion ++ "/" ++ r.kind ++ "/" ++ r.name

/-- `cleanupUnmanagedResources` from `httpqueryresource_controller.go`
lines 394–446: among the listed labelled resources, Delete those owned by
the instance UID whose key is not in the current cycle's key set. Result:
the objects Delete is called on. -/
def cleanupUnmanagedResources (uid : String) (currentResources listed : List HObj) :
    List HObj :=
  let currentResourceNames := currentResources.map httpResourceKey
  listed.filter (fun item =>
    item.ownerUIDs.contains uid && httpResourceKey item ∉ currentResourceNames)

/-- Prune step of `reconcileResources` lines 254–260: cleanup runs only
when the prune gate is open. Result: the objects deleted. -/
def httpCleanupStep (prune : Option Bool) (uid : String)
    (currentResources listed : List HObj) : List HObj :=
  if httpPruneGate prune then cleanupUnmanagedResources uid currentResources listed
  else []

/-- Inventory step of `reconcileResources` lines 262–271: status
`managedResources` is the list of resource names, sorted when more than
one (Go `sort.Strings`, modelled by insertion sort). -/
def httpManagedResourceNames (resources : List HObj) : List String :=
  let managedResourceNames := resources.map HObj.name
  if managedResourceNames.length > 1 then managedResourceNames.insertionSort (· ≤ ·)
  else managedResourceNames

/-- `metav1.Condition` fields used by the controllers. -/
structure Condition where
  type : String
  status : String
  lastTransitionTime : Nat
  reason : String
  message : String
deriving DecidableEq, Repr

/-- `setCondition` from `httpqueryresource_controller.go` lines 174–200:
replace the first condition of the same type wholesale when the status
flipped (taking the fresh `lastTransitionTime`, modelled by `now`), update
only message and reason when the status is unchanged, and append a new
condition when the type is absent. -/
def setCondition (now : Nat) (conditionType status reason message : String) :
    List Condition → List Condition
  | [] => [⟨conditionType, status, now, reason, message⟩]
  | existing :: rest =>
    if existing.type = conditionType then
      if existing.status ≠ status then
        ⟨conditionType, status, now, reason, message⟩ :: rest
      else
        { existing with message := message, reason := reason } :: rest
    else
      existing :: setCondition now conditionType status reason message rest

/-- One `setCondition` call with its wall-clock instant. -/
structure CondCall where
  time : Nat
  ctype : String
  status : String
  reason : String
  message : String
deriving DecidableEq, Repr

/-- A sequence of `setCondition` calls applied to the initially empty
condition list of a fresh status. -/
def applyCondCalls (calls : List CondCall) : List Condition :=
  calls.foldl (fun conds c => setCondition c.time c.ctype c.status c.reason c.message conds) []

/-- First condition of a given type, as the `setCondition` loop finds it. -/
def findCond (conditionType : String) (conds : List Condition) : Option Condition :=
  conds.find? (fun c => c.type == conditionType)

/-- Invariant tying the database row loop's key set to its applied set:
keys are duplicate-free and are exactly the object keys of the applied
resources. -/
def MKInv (st : DbCycleState) : Prop :=
  st.managedKeys.Nodup ∧
    ∀ k, k ∈ st.managedKeys ↔ ∃ o ∈ st.applied, getObjectKey o = k

theorem parseGVKStep_eq (gvks : List GVK) (entry : String) :
    parseGVKStep gvks entry = gvks ++ (validEntryGVK entry).toList := by
  unfold parseGVKStep validEntryGVK
  by_cases h : trimSpace entry = ""
  · simp [h]
  · simp only [h, if_false]
    rcases hp : goSplit (trimSpace entry) "/" with _ | ⟨a, _ | ⟨b, _ | ⟨c, _ | ⟨d, l⟩⟩⟩⟩
    · simp [hp]
    · simp [hp]
    · by_cases hv : a = "" ∨ b = "" <;> simp [hp, hv]
    · by_cases hv : b = "" ∨ c = "" <;> simp [hp, hv]
    · simp [hp]

theorem parseGVKs_foldl (l : List String) (acc : List GVK) :
    l.foldl parseGVKStep acc = acc ++ l.filterMap validEntryGVK := by
  induction l generalizing acc with
  | nil => simp
  | cons e rest ih =>
    simp only [List.foldl_cons, List.filterMap_cons, parseGVKStep_eq]
    cases h : validEntryGVK e <;> simp [h, ih]

/-- C10: `ParseGVKs` splits the pattern on semicolons, skips every entry that
is empty or not of the form `version/kind` or `group/version/kind` with
non-empty version and kind, returns the remaining entries in order, and
errors exactly when zero valid entries result. -/
theorem ParseGVKs_eq_claim (pattern : String) :
    ParseGVKs pattern = ParseGVKsClaim pattern := by
  unfold ParseGVKs ParseGVKsClaim
  rw [parseGVKs_foldl]
  simp

/-- Witness for C10 at a concrete mixed valid/invalid pattern. -/
theorem ParseGVKs_eq_claim_witness :
    ParseGVKs "v1/ConfigMap;bad;apps/v1/Deployment;;/" =
      ParseGVKsClaim "v1/ConfigMap;bad;apps/v1/Deployment;;/" :=
  ParseGVKs_eq_claim "v1/ConfigMap;bad;apps/v1/Deployment;;/"

theorem parseResourcesLoop_eq (jsonU yamlU : String → Option KMap)
    (docs : List String) (acc : List KMap) :
    parseResourcesLoop jsonU yamlU docs acc =
      (if docs.all (docParseableClaim jsonU yamlU) then
        .ok (acc ++ docs.filterMap (keptDocClaim jsonU yamlU))
      else .error "failed to parse document as JSON or YAML") := by
  induction docs generalizing acc with
  | nil => simp [parseResourcesLoop]
  | cons d rest ih =>
    by_cases h0 : trimSpace d = ""
    · simp [parseResourcesLoop, docParseableClaim, keptDocClaim, h0, ih]
    · cases hj : jsonU (trimSpace d) with
      | some obj =>
        by_cases hlen : obj.length = 0 <;>
          simp [parseResourcesLoop, docParseableClaim, keptDocClaim, parseDocClaim,
            h0, hj, hlen, ih]
      | none =>
        cases hy : yamlU (trimSpace d) with
        | some obj =>
          by_cases hlen : obj.length = 0 <;>
            simp [parseResourcesLoop, docParseableClaim, keptDocClaim, parseDocClaim,
              h0, hj, hy, hlen, ih]
        | none =>
          simp [parseResourcesLoop, docParseableClaim, keptDocClaim, parseDocClaim,
            h0, hj, hy]

/-- C7: `ParseResources` splits its input on `---`, discards whitespace-only
candidates silently, parses each remaining candidate as JSON with a YAML
fallback, and errors exactly when a non-empty candidate parses under
neither format. -/
theorem ParseResources_eq_claim (jsonU yamlU : String → Option KMap) (data : String) :
    ParseResources jsonU yamlU data = ParseResourcesClaim jsonU yamlU data := by
  unfold ParseResources ParseResourcesClaim
  rw [parseResourcesLoop_eq]
  simp

/-- Witness for C7 at a concrete input: two documents, a JSON-only parser
accepting the literal `doc`, one whitespace-only candidate in between. -/
theorem ParseResources_eq_claim_witness :
    ParseResources (fun s => if s = "doc" then some [("kind", "ConfigMap")] else none)
        (fun _ => none) "doc--- ---doc" =
      ParseResourcesClaim (fun s => if s = "doc" then some [("kind", "ConfigMap")] else none)
        (fun _ => none) "doc--- ---doc" :=
  ParseResources_eq_claim _ _ "doc--- ---doc"

/-- C6: on the empty item list, `ProcessHTTPResponseToResources` returns the
"all items failed to process" aggregate error rather than an empty
resource list, for every template and every choice of the external
collaborators. -/
theorem processHTTPResponse_empty_items_errors
    (render : String → Nat → String → Except String String)
    (jsonU yamlU : String → Option KMap)
    (getAnno : KMap → List (String × String))
    (setAnno : KMap → List (String × String) → KMap)
    (marshalItem : String → String) (templateStr : String) :
    ProcessHTTPResponseToResources render jsonU yamlU getAnno setAnno marshalItem
      templateStr [] = .error "all items failed to process: " := by
  have h : "all items failed to process: " ++ String.intercalate "; " [] =
      "all items failed to process: " := by decide
  simp [ProcessHTTPResponseToResources, processItemsLoop, h]

/-- Witness for C6 at a concrete template and concrete collaborators. -/
theorem processHTTPResponse_empty_items_errors_witness :
    ProcessHTTPResponseToResources (fun _ _ _ => .ok "doc") (fun _ => none)
      (fun _ => none) (fun _ => []) (fun r _ => r) (fun i => i) "tmpl" [] =
      .error "all items failed to process: " :=
  processHTTPResponse_empty_items_errors _ _ _ _ _ _ "tmpl"

/-- C1 (code-bug evidence): in the HTTP controller's apply loop, an apply
failure for the first rendered resource aborts the whole loop, so the
second resource — whose own apply would succeed — is never applied. -/
theorem httpApply_aborts_on_first_failure :
    (fun r : HObj => if r.name = "a" then some "apply failed" else none)
        ⟨"v1", "ConfigMap", "ns", "b", []⟩ = none ∧
    httpApplyResources (fun r => if r.name = "a" then some "apply failed" else none)
      [⟨"v1", "ConfigMap", "ns", "a", []⟩, ⟨"v1", "ConfigMap", "ns", "b", []⟩] =
      ([], some "apply failed") := by
  decide

/-- C2 (code-bug evidence): `deleteOwnedResources` returns nil on every
input, so `handleDeletion` removes the finalizer even in a pass where
deleting an owned child failed with a non-not-found error. -/
theorem handleDeletion_removes_finalizer_despite_delete_failure :
    (∀ (uid : String) (listOwned : GVK → Option (List HObj))
        (del : HObj → DelOutcome) (ownedGVKs : List GVK),
        (deleteOwnedResources uid listOwned del ownedGVKs).2 = none) ∧
    (deleteOwnedResources "uid-1"
        (fun _ => some [⟨"apps/v1", "Deployment", "ns", "web", ["uid-1"]⟩])
        (fun _ => .failed "connection refused") [⟨"apps", "v1", "Deployment"⟩]).1 =
      [⟨"apps/v1", "Deployment", "ns", "web", ["uid-1"]⟩] ∧
    handleDeletion "uid-1"
        (fun _ => some [⟨"apps/v1", "Deployment", "ns", "web", ["uid-1"]⟩])
        (fun _ => .failed "connection refused") [⟨"apps", "v1", "Deployment"⟩]
        [HTTPQueryFinalizer] = .ok [] := by
  exact ⟨fun uid listOwned del ownedGVKs => rfl, by decide, rfl⟩

/-- C3 (code-bug evidence): with `prune` unset the HTTP controller's prune
gate stays closed and a stale owned resource survives the cycle, although
`GetPrune` defaults to true and with `prune=true` the very same stale
resource is deleted. -/
theorem httpPrune_unset_skips_cleanup :
    GetPrune none = true ∧
    httpCleanupStep (some true) "uid-1" []
        [⟨"v1", "ConfigMap", "ns", "old", ["uid-1"]⟩] =
      [⟨"v1", "ConfigMap", "ns", "old", ["uid-1"]⟩] ∧
    httpCleanupStep none "uid-1" []
        [⟨"v1", "ConfigMap", "ns", "old", ["uid-1"]⟩] = [] := by
  decide

theorem pruneStale_deleted (del : KObj → DelOutcome) (currentKeys : List String)
    (l : List KObj) (acc : List String × List KObj) :
    (l.foldl (pruneStep del currentKeys) acc).2 =
      acc.2 ++ l.filter (fun i => getObjectKey i ∉ currentKeys) := by
  induction l generalizing acc with
  | nil => simp
  | cons i rest ih =>
    by_cases h : getObjectKey i ∈ currentKeys
    · simp [pruneStep, h, ih]
    · cases hd : del i <;> simp [pruneStep, h, hd, ih]

/-- C9: `getObjectKey` omits the resource kind from the key it builds, so a
stale owned resource sharing group, version, namespace and name with a
current-cycle resource of a different kind maps to the same key and is
never deleted by `pruneStaleResources`. -/
theorem pruneStale_kind_collision (del : KObj → DelOutcome)
    (children current : List KObj) (s c : KObj)
    (hg : s.group = c.group) (hv : s.version = c.version)
    (hns : s.nspace = c.nspace) (hn : s.name = c.name) (hk : s.kind ≠ c.kind)
    (hc : c ∈ current) :
    getObjectKey s = getObjectKey c ∧
    s ∉ (pruneStaleResources del (current.map getObjectKey) children).2 := by
  have hkey : getObjectKey s = getObjectKey c := by
    simp [getObjectKey, hg, hv, hns, hn]
  refine ⟨hkey, ?_⟩
  rw [pruneStaleResources, pruneStale_deleted]
  intro hmem
  simp only [List.nil_append, List.mem_filter] at hmem
  have hin : getObjectKey s ∈ current.map getObjectKey := by
    rw [hkey]
    exact List.mem_map_of_mem getObjectKey hc
  simp [hin] at hmem

/-- Witness for C9: a stale StatefulSet colliding with a current Deployment
on group, version, namespace and name is not pruned. -/
theorem pruneStale_kind_collision_witness :
    getObjectKey ⟨"apps", "v1", "StatefulSet", "ns", "web", []⟩ =
      getObjectKey ⟨"apps", "v1", "Deployment", "ns", "web", []⟩ ∧
    (⟨"apps", "v1", "StatefulSet", "ns", "web", []⟩ : KObj) ∉
      (pruneStaleResources (fun _ => DelOutcome.ok)
        ([(⟨"apps", "v1", "Deployment", "ns", "web", []⟩ : KObj)].map getObjectKey)
        [⟨"apps", "v1", "StatefulSet", "ns", "web", []⟩]).2 :=
  pruneStale_kind_collision (fun _ => DelOutcome.ok)
    [⟨"apps", "v1", "StatefulSet", "ns", "web", []⟩]
    [⟨"apps", "v1", "Deployment", "ns", "web", []⟩]
    ⟨"apps", "v1", "StatefulSet", "ns", "web", []⟩
    ⟨"apps", "v1", "Deployment", "ns", "web", []⟩
    rfl rfl rfl rfl (by decide) (by decide)

theorem strLength_append (s t : String) : (s ++ t).length = s.length + t.length := by
  cases s
  cases t
  simp [String.length, String.append]

theorem strLength_mk (l : List Char) : (String.mk l).length = l.length := rfl

theorem truncateError_le (msg : String) : (truncateError msg 1024).length ≤ 1024 := by
  unfold truncateError
  by_cases h : msg.length > 1024
  · simp only [h, if_true]
    rw [strLength_append, strLength_mk, List.length_take]
    have h3 : ("..." : String).length = 3 := by decide
    rw [h3]
    omega
  · simp only [h, if_false]
    omega

theorem truncateError_ellipsis (msg : String) (h : msg.length > 1024) :
    ∃ s, truncateError msg 1024 = s ++ "..." := by
  unfold truncateError
  simp only [h, if_true]
  exact ⟨_, rfl⟩

/-- C5 counterexample: a cycle whose whole-template parse fails — a fatal
error, so a cycle the claim covers — sets `Reconciled=false` with reason
`TemplateError`, but returns requeue delay 0 and a nil error instead of
requeuing at the normal poll interval of 60, and its message is attached
without truncation; this refutes the claim's "still requeuing at the
normal poll interval" for fatal-error cycles. -/
theorem dbFatalError_no_poll_requeue_counterexample :
    (dbCycleFromTemplate 60 (.error "unexpected EOF") [] [] [] []).reconciledStatus
        = false ∧
    (dbCycleFromTemplate 60 (.error "unexpected EOF") [] [] [] []).reconciledReason
        = "TemplateError" ∧
    (dbCycleFromTemplate 60 (.error "unexpected EOF") [] [] [] []).requeueAfter = 0 ∧
    (dbCycleFromTemplate 60 (.error "unexpected EOF") [] [] [] []).requeueAfter ≠ 60 ∧
    (dbCycleFromTemplate 60 (.error "unexpected EOF") [] [] [] []).returnedError
        = none := by
  decide

/-- C5 amended: whenever a database-controller cycle ran its row loop — no
fatal error short-circuited it — and collected at least one per-record or
prune error, the controller joins all error messages into one
`; `-separated message, truncates it to at most 1024 characters appending
an ellipsis marker when cut, attaches it to the `Reconciled` condition
with status false, returns a failure, and still requeues after the normal
poll interval. -/
theorem dbCycle_error_reporting (pollInterval : Nat)
    (rowProcessingErrors pruneErrors managedKeys : List String)
    (h : rowProcessingErrors ++ pruneErrors ≠ []) :
    (dbFinishCycle pollInterval rowProcessingErrors pruneErrors managedKeys).reconciledStatus
        = false ∧
    (dbFinishCycle pollInterval rowProcessingErrors pruneErrors managedKeys).reconciledReason
        = "ProcessingError" ∧
    (dbFinishCycle pollInterval rowProcessingErrors pruneErrors managedKeys).reconciledMessage
        = truncateError (String.intercalate "; " (rowProcessingErrors ++ pruneErrors)) 1024 ∧
    (dbFinishCycle pollInterval rowProcessingErrors pruneErrors managedKeys).reconciledMessage.length
        ≤ 1024 ∧
    ((String.intercalate "; " (rowProcessingErrors ++ pruneErrors)).length > 1024 →
      ∃ s, (dbFinishCycle pollInterval rowProcessingErrors pruneErrors managedKeys).reconciledMessage
        = s ++ "...") ∧
    (dbFinishCycle pollInterval rowProcessingErrors pruneErrors managedKeys).returnedError
        = some ("reconciliation failed: "
            ++ String.intercalate "; " (rowProcessingErrors ++ pruneErrors)) ∧
    (dbFinishCycle pollInterval rowProcessingErrors pruneErrors managedKeys).requeueAfter
        = pollInterval := by
  have hlen : (rowProcessingErrors ++ pruneErrors).length > 0 := by
    cases hx : rowProcessingErrors ++ pruneErrors with
    | nil => exact absurd hx h
    | cons a l => simp
  have hor : 0 < rowProcessingErrors.length ∨ 0 < pruneErrors.length := by
    cases hx : rowProcessingErrors with
    | cons a l => left; simp
    | nil =>
      right
      cases hy : pruneErrors with
      | nil =>
        subst hx
        subst hy
        simp at h
      | cons a l => simp
  refine ⟨?_, ?_, ?_, ?_, ?_, ?_, ?_⟩ <;> simp [dbFinishCycle, hor]
  · exact truncateError_le _
  · exact fun hgt => truncateError_ellipsis _ hgt

/-- Witness for C5: a single apply error is reported, attached untruncated,
and the cycle requeues at the 60-unit poll interval. -/
theorem dbCycle_error_reporting_witness :
    (["apply error for ns/web: boom"] ++ ([] : List String) ≠ []) ∧
    ((dbFinishCycle 60 ["apply error for ns/web: boom"] [] []).reconciledStatus = false ∧
     (dbFinishCycle 60 ["apply error for ns/web: boom"] [] []).reconciledReason
        = "ProcessingError" ∧
     (dbFinishCycle 60 ["apply error for ns/web: boom"] [] []).reconciledMessage
        = truncateError (String.intercalate "; " (["apply error for ns/web: boom"] ++ [])) 1024 ∧
     (dbFinishCycle 60 ["apply error for ns/web: boom"] [] []).reconciledMessage.length ≤ 1024 ∧
     ((String.intercalate "; " (["apply error for ns/web: boom"] ++ [])).length > 1024 →
       ∃ s, (dbFinishCycle 60 ["apply error for ns/web: boom"] [] []).reconciledMessage
          = s ++ "...") ∧
     (dbFinishCycle 60 ["apply error for ns/web: boom"] [] []).returnedError
        = some ("reconciliation failed: "
            ++ String.intercalate "; " (["apply error for ns/web: boom"] ++ [])) ∧
     (dbFinishCycle 60 ["apply error for ns/web: boom"] [] []).requeueAfter = 60) :=
  ⟨by decide, dbCycle_error_reporting 60 ["apply error for ns/web: boom"] [] [] (by decide)⟩

theorem dbProcessRow_MKInv (crNamespace crName : String)
    (tmplExec : String → Except String String) (decode : String → Except String KObj)
    (setControllerRef : KObj → Except String KObj) (applyPatch : KObj → Except String Unit)
    (st : DbCycleState) (rowData : String) (h : MKInv st) :
    MKInv (dbProcessRow crNamespace crName tmplExec decode setControllerRef applyPatch
      st rowData) := by
  obtain ⟨hnd, hiff⟩ := h
  cases htm : tmplExec rowData with
  | error e =>
    simp only [dbProcessRow, htm]
    exact ⟨hnd, hiff⟩
  | ok rendered =>
    cases hdc : decode rendered with
    | error e =>
      simp only [dbProcessRow, htm, hdc]
      exact ⟨hnd, hiff⟩
    | ok obj0 =>
      cases hsr : setControllerRef (materializeObj crNamespace crName obj0) with
      | error e =>
        simp only [dbProcessRow, htm, hdc, hsr]
        exact ⟨hnd, hiff⟩
      | ok obj =>
        cases hap : applyPatch obj with
        | error e =>
          simp only [dbProcessRow, htm, hdc, hsr, hap]
          exact ⟨hnd, hiff⟩
        | ok u =>
          simp only [dbProcessRow, htm, hdc, hsr, hap]
          refine ⟨?_, ?_⟩
          · show (if getObjectKey obj ∈ st.managedKeys then st.managedKeys
                else st.managedKeys ++ [getObjectKey obj]).Nodup
            by_cases hmem : getObjectKey obj ∈ st.managedKeys
            · simpa [hmem] using hnd
            · simp only [hmem, if_false]
              refine List.Nodup.append hnd (List.nodup_singleton _) ?_
              simpa [List.disjoint_singleton] using hmem
          · intro k
            show k ∈ (if getObjectKey obj ∈ st.managedKeys then st.managedKeys
                else st.managedKeys ++ [getObjectKey obj]) ↔
              ∃ o ∈ st.applied ++ [obj], getObjectKey o = k
            by_cases hmem : getObjectKey obj ∈ st.managedKeys
            · rw [if_pos hmem]
              constructor
              · intro hk
                obtain ⟨o, ho, rfl⟩ := (hiff k).1 hk
                exact ⟨o, List.mem_append_left _ ho, rfl⟩
              · rintro ⟨o, ho, rfl⟩
                rcases List.mem_append.1 ho with h1 | h1
                · exact (hiff _).2 ⟨o, h1, rfl⟩
                · rcases List.mem_singleton.1 h1 with rfl
                  exact hmem
            · rw [if_neg hmem]
              simp only [List.mem_append, List.mem_singleton]
              constructor
              · rintro (hk | rfl)
                · obtain ⟨o, ho, rfl⟩ := (hiff _).1 hk
                  exact ⟨o, Or.inl ho, rfl⟩
                · exact ⟨obj, Or.inr rfl, rfl⟩
              · rintro ⟨o, ho, rfl⟩
                rcases ho with h1 | rfl
                · exact Or.inl ((hiff _).2 ⟨o, h1, rfl⟩)
                · exact Or.inr rfl

theorem dbProcessRows_foldl_MKInv (crNamespace crName : String)
    (tmplExec : String → Except String String) (decode : String → Except String KObj)
    (setControllerRef : KObj → Except String KObj) (applyPatch : KObj → Except String Unit)
    (rows : List String) (st : DbCycleState) (h : MKInv st) :
    MKInv (rows.foldl (dbProcessRow crNamespace crName tmplExec decode setControllerRef
      applyPatch) st) := by
  induction rows generalizing st with
  | nil => exact h
  | cons r rest ih =>
    exact ih _ (dbProcessRow_MKInv crNamespace crName tmplExec decode setControllerRef
      applyPatch st r h)

theorem dbProcessRows_MKInv (crNamespace crName : String)
    (tmplExec : String → Except String String) (decode : String → Except String KObj)
    (setControllerRef : KObj → Except String KObj) (applyPatch : KObj → Except String Unit)
    (rows : List String) :
    MKInv (dbProcessRows crNamespace crName tmplExec decode setControllerRef applyPatch
      rows) := by
  refine dbProcessRows_foldl_MKInv crNamespace crName tmplExec decode setControllerRef
    applyPatch rows _ ⟨List.nodup_nil, ?_⟩
  intro k
  simp

theorem httpManagedResourceNames_spec (resources : List HObj) :
    (httpManagedResourceNames resources).Sorted (· ≤ ·) ∧
    (httpManagedResourceNames resources).Perm (resources.map HObj.name) := by
  unfold httpManagedResourceNames
  by_cases h : (resources.map HObj.name).length > 1
  · simp only [h, if_true]
    exact ⟨List.sorted_insertionSort _ _, List.perm_insertionSort _ _⟩
  · simp only [h, if_false]
    refine ⟨?_, List.Perm.refl _⟩
    rcases hl : resources.map HObj.name with _ | ⟨a, _ | ⟨b, l⟩⟩
    · simp
    · simp
    · rw [hl] at h
      simp at h

/-- C4 counterexample: a fully successful one-row cycle that applies one
Deployment persists managedResources = ["apps/v1/ns/web"], while the list
of five-part (group, version, kind, namespace, name) identity keys of the
resources produced is ["apps/v1/Deployment/ns/web"]; the two lists differ,
so the persisted inventory is not the sorted list of identity keys that
comprise the kind. -/
theorem managedResources_identityKey_counterexample :
    (dbProcessRows "ns" "cr" (fun _ => .ok "doc")
        (fun _ => .ok ⟨"apps", "v1", "Deployment", "", "web", []⟩)
        (fun o => .ok o) (fun _ => .ok ()) ["row1"]).rowErrors = [] ∧
    dbManagedResourcesList
        (dbProcessRows "ns" "cr" (fun _ => .ok "doc")
          (fun _ => .ok ⟨"apps", "v1", "Deployment", "", "web", []⟩)
          (fun o => .ok o) (fun _ => .ok ()) ["row1"]).managedKeys =
      ["apps/v1/ns/web"] ∧
    ((dbProcessRows "ns" "cr" (fun _ => .ok "doc")
        (fun _ => .ok ⟨"apps", "v1", "Deployment", "", "web", []⟩)
        (fun o => .ok o) (fun _ => .ok ()) ["row1"]).applied.map identityKeyClaim) =
      ["apps/v1/Deployment/ns/web"] ∧
    dbManagedResourcesList
        (dbProcessRows "ns" "cr" (fun _ => .ok "doc")
          (fun _ => .ok ⟨"apps", "v1", "Deployment", "", "web", []⟩)
          (fun o => .ok o) (fun _ => .ok ()) ["row1"]).managedKeys ≠
      ((dbProcessRows "ns" "cr" (fun _ => .ok "doc")
          (fun _ => .ok ⟨"apps", "v1", "Deployment", "", "web", []⟩)
          (fun o => .ok o) (fun _ => .ok ()) ["row1"]).applied.map identityKeyClaim) := by
  decide

/-- C4 amended: on a successful cycle the database controller persists
managedResources as the sorted duplicate-free list of
group/version/namespace/name keys (kind omitted) of exactly the resources
applied in that cycle, while the HTTP controller persists the sorted list
of the resources' names. -/
theorem managedResources_inventory_amended (crNamespace crName : String)
    (tmplExec : String → Except String String) (decode : String → Except String KObj)
    (setControllerRef : KObj → Except String KObj) (applyPatch : KObj → Except String Unit)
    (rows : List String) (resources : List HObj)
    (hsuccess : (dbProcessRows crNamespace crName tmplExec decode setControllerRef
      applyPatch rows).rowErrors = []) :
    (dbManagedResourcesList (dbProcessRows crNamespace crName tmplExec decode
        setControllerRef applyPatch rows).managedKeys).Sorted (· ≤ ·) ∧
    (dbManagedResourcesList (dbProcessRows crNamespace crName tmplExec decode
        setControllerRef applyPatch rows).managedKeys).Nodup ∧
    (∀ k, k ∈ dbManagedResourcesList (dbProcessRows crNamespace crName tmplExec decode
        setControllerRef applyPatch rows).managedKeys ↔
      ∃ o ∈ (dbProcessRows crNamespace crName tmplExec decode setControllerRef
        applyPatch rows).applied, getObjectKey o = k) ∧
    (httpManagedResourceNames resources).Sorted (· ≤ ·) ∧
    (httpManagedResourceNames resources).Perm (resources.map HObj.name) := by
  obtain ⟨hnd, hiff⟩ := dbProcessRows_MKInv crNamespace crName tmplExec decode
    setControllerRef applyPatch rows
  have hperm := List.perm_insertionSort (α := String) (· ≤ ·)
    (dbProcessRows crNamespace crName tmplExec decode setControllerRef applyPatch
      rows).managedKeys
  obtain ⟨hhs, hhp⟩ := httpManagedResourceNames_spec resources
  refine ⟨List.sorted_insertionSort _ _, ?_, ?_, hhs, hhp⟩
  · exact hperm.nodup_iff.mpr hnd
  · intro k
    rw [show dbManagedResourcesList (dbProcessRows crNamespace crName tmplExec decode
        setControllerRef applyPatch rows).managedKeys =
      (dbProcessRows crNamespace crName tmplExec decode setControllerRef applyPatch
        rows).managedKeys.insertionSort (· ≤ ·) from rfl]
    rw [hperm.mem_iff]
    exact hiff k

/-- Witness for C4 amended: the one-row cycle of the counterexample input
satisfies the inventory characterization, together with a two-name HTTP
inventory. -/
theorem managedResources_inventory_amended_witness :
    (dbProcessRows "ns" "cr" (fun _ => .ok "rendered")
        (fun _ => .ok ⟨"apps", "v1", "StatefulSet", "", "db", []⟩)
        (fun o => .ok o) (fun _ => .ok ()) ["r1"]).rowErrors = [] ∧
    ((dbManagedResourcesList (dbProcessRows "ns" "cr" (fun _ => .ok "rendered")
        (fun _ => .ok ⟨"apps", "v1", "StatefulSet", "", "db", []⟩)
        (fun o => .ok o) (fun _ => .ok ()) ["r1"]).managedKeys).Sorted (· ≤ ·) ∧
     (dbManagedResourcesList (dbProcessRows "ns" "cr" (fun _ => .ok "rendered")
        (fun _ => .ok ⟨"apps", "v1", "StatefulSet", "", "db", []⟩)
        (fun o => .ok o) (fun _ => .ok ()) ["r1"]).managedKeys).Nodup ∧
     (∀ k, k ∈ dbManagedResourcesList (dbProcessRows "ns" "cr" (fun _ => .ok "rendered")
        (fun _ => .ok ⟨"apps", "v1", "StatefulSet", "", "db", []⟩)
        (fun o => .ok o) (fun _ => .ok ()) ["r1"]).managedKeys ↔
       ∃ o ∈ (dbProcessRows "ns" "cr" (fun _ => .ok "rendered")
          (fun _ => .ok ⟨"apps", "v1", "StatefulSet", "", "db", []⟩)
          (fun o => .ok o) (fun _ => .ok ()) ["r1"]).applied, getObjectKey o = k) ∧
     (httpManagedResourceNames [⟨"v1", "ConfigMap", "ns", "b", []⟩,
        ⟨"v1", "ConfigMap", "ns", "a", []⟩]).Sorted (· ≤ ·) ∧
     (httpManagedResourceNames [⟨"v1", "ConfigMap", "ns", "b", []⟩,
        ⟨"v1", "ConfigMap", "ns", "a", []⟩]).Perm
       ([⟨"v1", "ConfigMap", "ns", "b", []⟩,
         (⟨"v1", "ConfigMap", "ns", "a", []⟩ : HObj)].map HObj.name)) :=
  ⟨by decide, managedResources_inventory_amended "ns" "cr" (fun _ => .ok "rendered")
    (fun _ => .ok ⟨"apps", "v1", "StatefulSet", "", "db", []⟩)
    (fun o => .ok o) (fun _ => .ok ()) ["r1"]
    [⟨"v1", "ConfigMap", "ns", "b", []⟩, ⟨"v1", "ConfigMap", "ns", "a", []⟩]
    (by decide)⟩

theorem setCondition_map_type (now : Nat) (t s r m : String) (conds : List Condition) :
    (setCondition now t s r m conds).map Condition.type =
      (if conds.any (fun c => c.type == t) then conds.map Condition.type
      else conds.map Condition.type ++ [t]) := by
  induction conds with
  | nil => simp [setCondition]
  | cons c rest ih =>
    by_cases h : c.type = t
    · by_cases hs : c.status ≠ s
      · simp [setCondition, h, hs]
      · simp [setCondition, h, hs]
    · by_cases ha : rest.any (fun x => x.type == t)
      · simp [setCondition, h, ha, ih]
      · simp [setCondition, h, ha, ih]

theorem setCondition_types_nodup (now : Nat) (t s r m : String) (conds : List Condition)
    (h : (conds.map Condition.type).Nodup) :
    ((setCondition now t s r m conds).map Condition.type).Nodup := by
  rw [setCondition_map_type]
  by_cases ha : conds.any (fun c => c.type == t)
  · simpa [ha] using h
  · simp only [ha, if_false]
    refine List.Nodup.append h (List.nodup_singleton _) ?_
    rw [List.disjoint_singleton]
    intro hmem
    rw [List.mem_map] at hmem
    obtain ⟨c, hc, hct⟩ := hmem
    exact ha (List.any_eq_true.mpr ⟨c, hc, by simp [hct]⟩)

theorem applyCondCalls_foldl_nodup (calls : List CondCall) (conds : List Condition)
    (h : (conds.map Condition.type).Nodup) :
    ((calls.foldl (fun cs c => setCondition c.time c.ctype c.status c.reason c.message cs)
      conds).map Condition.type).Nodup := by
  induction calls generalizing conds with
  | nil => exact h
  | cons c rest ih =>
    exact ih _ (setCondition_types_nodup c.time c.ctype c.status c.reason c.message conds h)

theorem setCondition_find_same (now : Nat) (t s r m : String) (conds : List Condition)
    (c : Condition) (hfind : findCond t conds = some c) (hs : c.status = s) :
    findCond t (setCondition now t s r m conds) =
      some { c with reason := r, message := m } := by
  induction conds with
  | nil => simp [findCond] at hfind
  | cons d rest ih =>
    by_cases h : d.type = t
    · have hd : d = c := by
        simpa [findCond, h] using hfind
      subst hd
      simp [setCondition, h, hs, findCond]
    · have hfr : findCond t rest = some c := by
        simpa [findCond, h] using hfind
      simpa [setCondition, findCond, h] using ih hfr

theorem setCondition_find_flip (now : Nat) (t s r m : String) (conds : List Condition)
    (c : Condition) (hfind : findCond t conds = some c) (hs : c.status ≠ s) :
    findCond t (setCondition now t s r m conds) = some ⟨t, s, now, r, m⟩ := by
  induction conds with
  | nil => simp [findCond] at hfind
  | cons d rest ih =>
    by_cases h : d.type = t
    · have hd : d = c := by
        simpa [findCond, h] using hfind
      subst hd
      simp [setCondition, h, hs, findCond]
    · have hfr : findCond t rest = some c := by
        simpa [findCond, h] using hfind
      simpa [setCondition, findCond, h] using ih hfr

/-- C8: starting from the empty condition list, every sequence of
`setCondition` calls leaves at most one condition per type; and one call
changes the stored condition's lastTransitionTime only when it flips the
status — with an equal status only reason and message are rewritten while
the timestamp is kept, with a flipped status the condition is replaced and
stamped with the call's time. -/
theorem setCondition_type_unique_and_ltt (calls : List CondCall)
    (now : Nat) (t s r m : String) (conds : List Condition) (c : Condition)
    (hfind : findCond t conds = some c) :
    ((applyCondCalls calls).map Condition.type).Nodup ∧
    (c.status = s →
      findCond t (setCondition now t s r m conds) =
        some { c with reason := r, message := m }) ∧
    (c.status ≠ s →
      findCond t (setCondition now t s r m conds) = some ⟨t, s, now, r, m⟩) :=
  ⟨applyCondCalls_foldl_nodup calls [] (by simp),
   fun hs => setCondition_find_same now t s r m conds c hfind hs,
   fun hs => setCondition_find_flip now t s r m conds c hfind hs⟩

/-- Witness for C8: with a Reconciled=True condition stamped at time 5, a
same-status call at time 9 keeps lastTransitionTime 5 and rewrites reason
and message, while the claim's flip clause is vacuous there. -/
theorem setCondition_type_unique_and_ltt_witness :
    findCond "Reconciled" [⟨"Reconciled", "True", 5, "Success", "ok"⟩] =
      some ⟨"Reconciled", "True", 5, "Success", "ok"⟩ ∧
    (((applyCondCalls [⟨5, "Reconciled", "True", "Success", "ok"⟩,
        ⟨9, "HTTPConnected", "True", "HTTPClientConnected", "up"⟩]).map
          Condition.type).Nodup ∧
     ((Condition.mk "Reconciled" "True" 5 "Success" "ok").status = "True" →
       findCond "Reconciled" (setCondition 9 "Reconciled" "True" "Again" "msg2"
          [⟨"Reconciled", "True", 5, "Success", "ok"⟩]) =
         some { Condition.mk "Reconciled" "True" 5 "Success" "ok" with
            reason := "Again", message := "msg2" }) ∧
     ((Condition.mk "Reconciled" "True" 5 "Success" "ok").status ≠ "True" →
       findCond "Reconciled" (setCondition 9 "Reconciled" "True" "Again" "msg2"
          [⟨"Reconciled", "True", 5, "Success", "ok"⟩]) =
         some ⟨"Reconciled", "True", 9, "Again", "msg2"⟩)) :=
  ⟨by decide,
   setCondition_type_unique_and_ltt
     [⟨5, "Reconciled", "True", "Success", "ok"⟩,
      ⟨9, "HTTPConnected", "True", "HTTPClientConnected", "up"⟩]
     9 "Reconciled" "True" "Again" "msg2"
     [⟨"Reconciled", "True", 5, "Success", "ok"⟩]
     ⟨"Reconciled", "True", 5, "Success", "ok"⟩ (by decide)⟩
